import Mathlib

/-!
# SmolRouter — verification of spec claims against a shallow embedding

This file embeds the parts of the SmolRouter source that the frozen claims
talk about:

* `src/app.py`: `rewrite_model`, `strip_think_chain_from_text`, the
  `proxy_request` error boundary;
* `src/smolrouter/database.py`: the `ApiKeyQuota` store and its operations;
* `src/smolrouter/google_genai_provider.py`: `_select_best_api_key` and the
  post-request bookkeeping;
* `src/smolrouter/providers.py`: `OpenAIProvider.generate_completion`.

External libraries (`re`, `hashlib`, `httpx`, the database driver, the HTTP
framework) are modelled at their boundary: the Python `re` module is modelled
by a small regex engine faithful to `re.match`/`re.sub` semantics on the
pattern fragment the program uses, `hashlib.sha256` is an abstract hash
parameter, and network outcomes are inductive data.
-/

namespace SmolRouter

/-! ## Model name rewriting (`src/app.py`, `rewrite_model`)

A `MODEL_MAP` table is an ordered list of `(key, target)` pairs (Python dict
iteration order).  A key that starts and ends with `"/"` is a regex entry;
`pattern.strip("/")` removes *all* leading and trailing slashes.  The regex
fragment actually used by the program is sequences of literal characters and
`(.*)` capture groups; compiling a pattern outside that fragment is
classified `unmodelled`, while a pattern Python itself rejects (an
unterminated character set) is classified `malformed` — `re.match` raises
`re.error` on it. -/

/-- One item of a compiled regex pattern: a literal character or a greedy
`(.*)` capture group. -/
inductive RItem where
  | lit (c : Char)
  | group
  deriving DecidableEq, Repr

/-- Result of compiling a pattern string, mirroring what `re.match`'s
compilation step does on it: `ok` for patterns inside the modelled fragment,
`malformed` for patterns Python rejects with `re.error`, `unmodelled` for
valid Python regexes outside the fragment. -/
inductive CompileResult where
  | ok (items : List RItem)
  | malformed
  | unmodelled
  deriving DecidableEq, Repr

/-- Regex metacharacters: a pattern containing one of these (outside the
exact `(.*)` sequence and the `[` rule below) is outside the modelled
fragment. -/
def isMetaChar (c : Char) : Bool :=
  c = '\\' || c = '^' || c = '$' || c = '.' || c = '|' || c = '?' ||
  c = '*' || c = '+' || c = '(' || c = ')' || c = '[' || c = ']' ||
  c = '{' || c = '}'

/-- Compile a pattern (as a character list).  `(.*)` becomes a group; a `[`
with no `]` after it is an unterminated character set, which Python rejects
(`re.error`); any other metacharacter puts the pattern outside the modelled
fragment. -/
def compileRe : List Char → CompileResult
  | [] => .ok []
  | c :: rest =>
    if c = '(' then
      match rest with
      | '.' :: '*' :: ')' :: rest' =>
        match compileRe rest' with
        | .ok items => .ok (.group :: items)
        | r => r
      | _ => .unmodelled
    else if c = '[' then
      if ']' ∈ rest then .unmodelled else .malformed
    else if isMetaChar c then .unmodelled
    else
      match compileRe rest with
      | .ok items => .ok (.lit c :: items)
      | r => r

/-- Greedy search for a `(.*)` capture: try capture lengths `k, k-1, …, 0`,
taking the longest one after which the continuation `f` (the matcher for the
remaining pattern items) succeeds. -/
def greedyGroup (f : List Char → Option (List (List Char) × List Char)) :
    Nat → List Char → Option (List (List Char) × List Char)
  | k, s =>
    match f (s.drop k) with
    | some (gs, r) => some (s.take k :: gs, r)
    | none =>
      match k with
      | 0 => none
      | k' + 1 => greedyGroup f k' s

/-- Match a compiled pattern against the *front* of a string (the semantics
of `re.match`: anchored at the start, not required to consume the whole
string).  Returns the captured groups in order and the unconsumed rest.
`(.*)` is greedy: the longest capture that lets the remaining items match
wins. -/
def matchItems : List RItem → List Char → Option (List (List Char) × List Char)
  | [], s => some ([], s)
  | .lit c :: ps, s =>
    match s with
    | [] => none
    | x :: xs => if x = c then matchItems ps xs else none
  | .group :: ps, s => greedyGroup (fun t => matchItems ps t) s.length s

/-- Expand a replacement template against captured groups, as
`match.expand` does: `\\1 … \\9` insert the corresponding group, `\\\\` is a
literal backslash.  Templates outside this fragment (or referring to a
missing group, which Python rejects) give `none`. -/
def expandTemplate (groups : List (List Char)) : List Char → Option (List Char)
  | [] => some []
  | '\\' :: '\\' :: rest => (expandTemplate groups rest).map (fun r => '\\' :: r)
  | '\\' :: d :: rest =>
    if d.isDigit then
      match groups.get? (d.toNat - '1'.toNat) with
      | some g => (expandTemplate groups rest).map (fun r => g ++ r)
      | none => none
    else none
  | '\\' :: [] => none
  | c :: rest => (expandTemplate groups rest).map (fun r => c :: r)

/-- `str.strip("/")`: drop every leading and trailing `'/'`. -/
def stripSlashes (s : List Char) : List Char :=
  ((s.dropWhile (· = '/')).reverse.dropWhile (· = '/')).reverse

/-- Does the list start with the character `c`?  (`str.startswith` for a
one-character needle.) -/
def headIs (c : Char) : List Char → Bool
  | [] => false
  | x :: _ => x = c

/-- Does the list end with the character `c`?  (`str.endswith` for a
one-character needle.) -/
def lastIs (c : Char) (l : List Char) : Bool :=
  headIs c l.reverse

/-- First-match association lookup; tables come from Python dicts, whose keys
are unique, so this is dict membership plus indexing. -/
def lookupTable (tbl : List (String × String)) (m : String) : Option String :=
  match tbl with
  | [] => none
  | (k, v) :: rest => if k = m then some v else lookupTable rest m

/-- What `rewrite_model` does: a rewritten name, or the `re.error` raised by
a malformed pattern, or an excursion outside the modelled regex fragment. -/
inductive RewriteResult where
  | ok (s : String)
  | reError
  | unmodelled
  deriving DecidableEq, Repr

/-- The regex loop of `rewrite_model`: iterate the table entries in order;
for each key delimited by `/` on both ends, strip the slashes, compile, and
`re.match` against the model name; on a match return the expanded target. -/
def rewriteRegexLoop (m : String) : List (String × String) → RewriteResult
  | [] => .ok m
  | (pat, target) :: rest =>
    if headIs '/' pat.data && lastIs '/' pat.data then
      match compileRe (stripSlashes pat.data) with
      | .malformed => .reError
      | .unmodelled => .unmodelled
      | .ok items =>
        match matchItems items m.data with
        | some (groups, _) =>
          match expandTemplate groups target.data with
          | some r => .ok ⟨r⟩
          | none => .unmodelled
        | none => rewriteRegexLoop m rest
    else rewriteRegexLoop m rest

/-- `rewrite_model` (`src/app.py:114`): exact dict hit first, then the regex
loop, else the original name. -/
def rewrite_model (tbl : List (String × String)) (m : String) : RewriteResult :=
  match lookupTable tbl m with
  | some t => .ok t
  | none => rewriteRegexLoop m tbl

/-! ## Thinking-chain stripper (`src/app.py`, `strip_think_chain_from_text`)

The function is the composition of four `re`/`str` operations:
1. `re.sub(r'<think>.*?</think>', '', text, flags=re.DOTALL)`;
2. `re.sub(r'\s+', ' ', result)`;
3. `re.sub(r'\s+([.!?,:;])', r'\1', result)`;
4. `result.strip()`.
Each is embedded as a character-list transformer faithful to the regex
engine's leftmost, non-greedy/greedy semantics. -/

/-- Whitespace as matched by Python's `\s` (and stripped by `str.strip()`):
ASCII whitespace plus the Unicode whitespace code points. -/
def isPySpace (c : Char) : Bool :=
  c.toNat ∈ [9, 10, 11, 12, 13, 28, 29, 30, 31, 32, 133, 160, 0x1680,
    0x2000, 0x2001, 0x2002, 0x2003, 0x2004, 0x2005, 0x2006, 0x2007, 0x2008,
    0x2009, 0x200A, 0x2028, 0x2029, 0x202F, 0x205F, 0x3000]

/-- The punctuation class `[.!?,:;]` of the third substitution. -/
def isPunct (c : Char) : Bool :=
  c = '.' || c = '!' || c = '?' || c = ',' || c = ':' || c = ';'

/-- Is `pat` a prefix of `s`? -/
def startsWithL : List Char → List Char → Bool
  | [], _ => true
  | _ :: _, [] => false
  | p :: ps, c :: cs => p = c && startsWithL ps cs

/-- Index of the first occurrence of `pat` as a contiguous sublist of `s`. -/
def findIdx (pat : List Char) : List Char → Option Nat
  | [] => if startsWithL pat [] then some 0 else none
  | s@(_ :: cs) =>
    if startsWithL pat s then some 0
    else (findIdx pat cs).map (· + 1)

/-- The opening marker `<think>`. -/
def openTag : List Char := ['<', 't', 'h', 'i', 'n', 'k', '>']

/-- The closing marker `</think>`. -/
def closeTag : List Char := ['<', '/', 't', 'h', 'i', 'n', 'k', '>']

/-- `re.sub(r'<think>.*?</think>', '', s, flags=re.DOTALL)`, fuelled so the
recursion is structural.  Scanning left to right: at an occurrence of
`<think>`, the non-greedy `.*?` runs to the *first* `</think>` after it; if
one exists the whole block is dropped and scanning resumes after it, and if
none exists no later occurrence can match either (any closer after a later
opener is also after this one), so the rest is kept verbatim.  Each removal
consumes at least 15 characters while using one unit of fuel, so
`fuel = s.length` never runs out. -/
def removeThinkF : Nat → List Char → List Char
  | _, [] => []
  | 0, s => s
  | fuel + 1, s@(c :: cs) =>
    if startsWithL openTag s then
      match findIdx closeTag (s.drop 7) with
      | some j => removeThinkF fuel ((s.drop 7).drop (j + 8))
      | none => s
    else c :: removeThinkF fuel cs

/-- Removal of paired `<think>…</think>` blocks. -/
def removeThink (s : List Char) : List Char :=
  removeThinkF s.length s

/-- `re.sub(r'\s+', ' ', s)`: collapse every maximal whitespace run to one
space.  The flag records whether we are inside a run already emitted. -/
def collapseWsB : Bool → List Char → List Char
  | _, [] => []
  | inRun, c :: cs =>
    if isPySpace c then
      if inRun then collapseWsB true cs
      else ' ' :: collapseWsB true cs
    else c :: collapseWsB false cs

/-- Whitespace-run collapsing. -/
def collapseWs (s : List Char) : List Char :=
  collapseWsB false s

/-- `re.sub(r'\s+([.!?,:;])', r'\1', s)`: a maximal whitespace run
immediately followed by a punctuation character is deleted (the punctuation
stays); scanning resumes after the punctuation.  `some runRev` holds the
current run, reversed. -/
def dropSpacePunctGo : Option (List Char) → List Char → List Char
  | none, [] => []
  | none, c :: cs =>
    if isPySpace c then dropSpacePunctGo (some [c]) cs
    else c :: dropSpacePunctGo none cs
  | some runRev, [] => runRev.reverse
  | some runRev, c :: cs =>
    if isPySpace c then dropSpacePunctGo (some (c :: runRev)) cs
    else if isPunct c then c :: dropSpacePunctGo none cs
    else runRev.reverse ++ c :: dropSpacePunctGo none cs

/-- Deletion of whitespace runs that precede punctuation. -/
def dropSpacePunct (s : List Char) : List Char :=
  dropSpacePunctGo none s

/-- `str.strip()`: drop leading and trailing whitespace. -/
def pyStrip (s : List Char) : List Char :=
  ((s.dropWhile isPySpace).reverse.dropWhile isPySpace).reverse

/-- `strip_think_chain_from_text` (`src/app.py:139`). -/
def strip_think_chain_from_text (s : String) : String :=
  ⟨pyStrip (dropSpacePunct (collapseWs (removeThink s.data)))⟩

/-! ## Quota store (`src/smolrouter/database.py`, `ApiKeyQuota`)

A persisted quota row is keyed by the unique triple
`(api_key_hash, provider_name, model_name)`; the store is the table, an
association list over that triple.  `hashlib.sha256(...).hexdigest()` is an
external library call, modelled as an abstract hash parameter
`h : String → String` — every operation receives the raw key only to apply
`h` to it, exactly as `ApiKeyQuota.hash_api_key` does.

Timestamps are microseconds (`datetime` resolution): `absMicro` is an
absolute instant (for subtracting two aware datetimes), `microOfDay` the
microseconds elapsed since the current Pacific midnight, and `date` the
`YYYY-MM-DD` Pacific date string. -/

/-- A stored `quota_exhausted_at` value: the database may hand back a
`datetime` or a string; a parseable string yields an instant, an unparseable
one raises `ValueError` when the selection code parses it. -/
inductive ExhTime where
  | dt (t : Int)
  | strOk (t : Int)
  | strBad
  deriving DecidableEq, Repr

/-- One `ApiKeyQuota` row (without the identifying triple, which is the
store key).  `error_count` is a `Nat`: the code only ever decays it with
`max(0, …)`. -/
structure QuotaRecord where
  requests_today : Nat
  tokens_today : Nat
  last_reset_date : String
  quota_exhausted_at : Option ExhTime
  invalid_key : Bool
  error_count : Nat
  last_error : Option String
  created_at : Int
  updated_at : Int
  deriving DecidableEq, Repr

/-- The unique row key: `(api_key_hash, provider_name, model_name)`. -/
abbrev QKey := String × String × String

/-- The quota table. -/
abbrev Store := List (QKey × QuotaRecord)

/-- Row lookup by the unique triple. -/
def lookupStore (store : Store) (k : QKey) : Option QuotaRecord :=
  match store with
  | [] => none
  | (k', r) :: rest => if k' = k then some r else lookupStore rest k

/-- Overwrite the row at a triple (a `save()` on a fetched row). -/
def writeStore (store : Store) (k : QKey) (r : QuotaRecord) : Store :=
  store.map (fun kr => if kr.1 = k then (k, r) else kr)

/-- `ApiKeyQuota.get_or_create_quota` (`src/smolrouter/database.py:226`):
fetch or create the row for `(h api_key, provider, model)`; a freshly
created row starts at zero with `last_reset_date = pacific_date`.  If the
stored `last_reset_date` differs from today's Pacific date the daily stats
are reset — counters zeroed, exhaustion marker cleared, the date advanced,
the error count decayed by 5 (floor 0) — and the row is **saved**. -/
def get_or_create_quota (h : String → String) (store : Store)
    (api_key provider model pacific_date : String) (now : Int) :
    QuotaRecord × Store :=
  let key : QKey := (h api_key, provider, model)
  match lookupStore store key with
  | none =>
    let q : QuotaRecord :=
      { requests_today := 0, tokens_today := 0, last_reset_date := pacific_date,
        quota_exhausted_at := none, invalid_key := false, error_count := 0,
        last_error := none, created_at := now, updated_at := now }
    (q, store ++ [(key, q)])
  | some q =>
    if q.last_reset_date ≠ pacific_date then
      let q' : QuotaRecord :=
        { q with requests_today := 0, tokens_today := 0,
                 quota_exhausted_at := none, last_reset_date := pacific_date,
                 error_count := q.error_count - 5, updated_at := now }
      (q', writeStore store key q')
    else (q, store)

/-- `ApiKeyQuota.mark_request_success` (`database.py:251`) on the row at a
triple: bump the daily counters, decay the error count by one (floor 0). -/
def mark_request_success (store : Store) (k : QKey) (tokens : Nat) (now : Int) : Store :=
  match lookupStore store k with
  | none => store
  | some q =>
    writeStore store k
      { q with requests_today := q.requests_today + 1,
               tokens_today := q.tokens_today + tokens,
               error_count := q.error_count - 1, updated_at := now }

/-- `ApiKeyQuota.mark_request_failure` (`database.py:259`): bump the error
count, record the error text; on `quota_exhausted` stamp the exhaustion
instant (Pacific now); on `invalid_key` set the permanent flag. -/
def mark_request_failure (store : Store) (k : QKey) (error : Option String)
    (quota_exhausted inv_key : Bool) (nowPacific now : Int) : Store :=
  match lookupStore store k with
  | none => store
  | some q =>
    writeStore store k
      { q with error_count := q.error_count + 1, last_error := error,
               updated_at := now,
               quota_exhausted_at :=
                 if quota_exhausted then some (.dt nowPacific) else q.quota_exhausted_at,
               invalid_key := q.invalid_key || inv_key }

/-- The invalid-key bulk update of `_update_api_key_stats`
(`google_genai_provider.py:295`): set `invalid_key` on every row whose
`api_key_hash` matches `h api_key` and whose provider matches — across all
models. -/
def mark_invalid_all_models (h : String → String) (store : Store)
    (api_key provider : String) : Store :=
  store.map (fun kr =>
    if kr.1.1 = h api_key ∧ kr.1.2.1 = provider then
      (kr.1, { kr.2 with invalid_key := true })
    else kr)

/-! ## Google GenAI key selection
(`src/smolrouter/google_genai_provider.py`, `_select_best_api_key`) -/

/-- The current instant, projected the three ways the selection code uses
it: the Pacific `YYYY-MM-DD` date string, an absolute microsecond count (for
subtracting datetimes), and microseconds since Pacific midnight (for the
seconds-until-reset computation). -/
structure PacificNow where
  date : String
  absMicro : Int
  microOfDay : Nat
  deriving Repr

/-- Substring test (`needle in haystack` on strings). -/
def containsSub (pat s : List Char) : Bool :=
  (findIdx pat s).isSome

/-- `str.lower()`. -/
def lowerStr (s : String) : String :=
  ⟨s.data.map Char.toLower⟩

/-- `_is_quota_exhausted_error` (`google_genai_provider.py:346`): any of the
indicator strings occurs in the lowercased error text. -/
def is_quota_exhausted_error (msg : String) : Bool :=
  let l := (lowerStr msg).data
  ["429", "resource_exhausted", "quota exceeded", "current quota",
   "quota.*exceeded", "requests per day", "free_tier_requests"].any
    (fun ind => containsSub ind.data l)

/-- `_is_invalid_key_error` (`google_genai_provider.py:327`). -/
def is_invalid_key_error (msg : String) : Bool :=
  let l := (lowerStr msg).data
  ["permission denied", "api key not valid", "invalid api key",
   "api_key_invalid", "authentication failed", "unauthorized", "forbidden",
   "invalid_argument", "credentials are missing or invalid",
   "api key expired"].any (fun ind => containsSub ind.data l)

/-- `timedelta.seconds` of a microsecond delta: the normalized
seconds-within-day component, i.e. the floored second count modulo 86400
(non-negative even for negative deltas). -/
def tdSeconds (deltaMicro : Int) : Int :=
  (deltaMicro.fdiv 1000000).emod 86400

/-- Outcome of `_select_best_api_key`: a chosen key, or the
`ResourceExhausted` error carrying `retry_after_seconds`. -/
inductive SelectOutcome where
  | key (k : String)
  | exhausted (retryAfterSeconds : Nat)
  deriving DecidableEq, Repr

/-- The per-key filter loop of `_select_best_api_key`
(`google_genai_provider.py:182-239`), threading the store through the
`_get_quota_record` fetches (which may reset-and-save rows) and collecting
`(key, actual_requests_today)` pairs for the keys that survive:
invalid keys, keys at the daily ceiling, keys with more than 20 errors, and
keys with a recent (< 1 hour, same Pacific date) quota-exhaustion error are
excluded; a key whose stored exhaustion timestamp is an unparseable string
is skipped too. -/
def selectLoop (h : String → String) (provider model : String) (ceiling : Nat)
    (now : PacificNow) :
    List String → Store → List (String × Nat) → List (String × Nat) × Store
  | [], store, acc => (acc, store)
  | k :: ks, store, acc =>
    let (q, store') := get_or_create_quota h store k provider model now.date now.absMicro
    if q.invalid_key then
      selectLoop h provider model ceiling now ks store' acc
    else
      let actual := if q.last_reset_date = now.date then q.requests_today else 0
      if ceiling ≤ actual then
        selectLoop h provider model ceiling now ks store' acc
      else if 20 < q.error_count then
        selectLoop h provider model ceiling now ks store' acc
      else if (match q.last_error with
               | some e => is_quota_exhausted_error e
               | none => false) && q.last_reset_date = now.date then
        match q.quota_exhausted_at with
        | some .strBad => selectLoop h provider model ceiling now ks store' acc
        | some (.dt t) =>
          if tdSeconds (now.absMicro - t) < 3600 then
            selectLoop h provider model ceiling now ks store' acc
          else
            selectLoop h provider model ceiling now ks store' (acc ++ [(k, actual)])
        | some (.strOk t) =>
          if tdSeconds (now.absMicro - t) < 3600 then
            selectLoop h provider model ceiling now ks store' acc
          else
            selectLoop h provider model ceiling now ks store' (acc ++ [(k, actual)])
        | none => selectLoop h provider model ceiling now ks store' (acc ++ [(k, actual)])
      else
        selectLoop h provider model ceiling now ks store' (acc ++ [(k, actual)])

/-- Python string `<`: lexicographic comparison by code point. -/
def charsLt : List Char → List Char → Bool
  | [], [] => false
  | [], _ :: _ => true
  | _ :: _, [] => false
  | a :: as, b :: bs =>
    a.toNat < b.toNat || (a.toNat = b.toNat && charsLt as bs)

/-- The sort key predicate of `available_keys.sort(key=lambda x: (x[1], x[0]))`:
ascending by request count, ties by the key string (code-point order). -/
def pairLe (a b : String × Nat) : Bool :=
  a.2 < b.2 || (a.2 = b.2 && !(charsLt b.1.data a.1.data))

/-- Stable insertion used by the sort. -/
def insertSorted (le : α → α → Bool) (x : α) : List α → List α
  | [] => [x]
  | y :: ys => if le x y then x :: y :: ys else y :: insertSorted le x ys

/-- Stable insertion sort — agrees with Python's stable `list.sort` for a
total preorder. -/
def insSort (le : α → α → Bool) : List α → List α
  | [] => []
  | x :: xs => insertSorted le x (insSort le xs)

/-- Microseconds per Pacific day. -/
def dayMicro : Nat := 86400000000

/-- `_select_best_api_key` (`google_genai_provider.py:170`): run the filter
loop over the configured keys; if nothing survives, raise `ResourceExhausted`
carrying `int((tomorrow_midnight - now).total_seconds())` — the floored
number of seconds until the next Pacific midnight (the float rounding in
`total_seconds` cannot cross an integer boundary at microsecond granularity,
so integer floor is exact); otherwise sort by `(count, key)` and take the
first. -/
def select_best_api_key (h : String → String) (cfgKeys : List String)
    (ceiling : Nat) (provider model : String) (now : PacificNow)
    (store : Store) : SelectOutcome × Store :=
  let (avail, store') := selectLoop h provider model ceiling now cfgKeys store []
  match insSort pairLe avail with
  | [] => (.exhausted ((dayMicro - now.microOfDay) / 1000000), store')
  | (k, _) :: _ => (.key k, store')

/-- The *effective* daily request count of a key in a store state, as the
claims define it: the stored count when the row's `last_reset_date` is
today's Pacific date, otherwise zero; zero for an absent row. -/
def effectiveCount (h : String → String) (store : Store)
    (api_key provider model today : String) : Nat :=
  match lookupStore store (h api_key, provider, model) with
  | some r => if r.last_reset_date = today then r.requests_today else 0
  | none => 0

/-- The permanently-invalid flag of a key's row (false for an absent row). -/
def invalidOf (h : String → String) (store : Store)
    (api_key provider model : String) : Bool :=
  match lookupStore store (h api_key, provider, model) with
  | some r => r.invalid_key
  | none => false

/-! ## JSON values

A small JSON model for request/response bodies. -/

/-- A JSON value. -/
inductive JVal where
  | str (s : String)
  | num (n : Int)
  | jbool (b : Bool)
  | null
  | arr (xs : List JVal)
  | obj (fields : List (String × JVal))
  deriving Repr

/-- First-match field lookup in a JSON object (`dict` access; dict keys are
unique). -/
def objGet (fields : List (String × JVal)) (k : String) : Option JVal :=
  match fields with
  | [] => none
  | (k', v) :: rest => if k' = k then some v else objGet rest k

/-- Replace the value at a field (`dict` assignment). -/
def objSet (fields : List (String × JVal)) (k : String) (v : JVal) :
    List (String × JVal) :=
  fields.map (fun kv => if kv.1 = k then (k, v) else kv)

/-- Python truthiness of a JSON value (`if payload.get("stream"):`). -/
def truthy : Option JVal → Bool
  | none => false
  | some (.str s) => s ≠ ""
  | some (.num n) => n ≠ 0
  | some (.jbool b) => b
  | some .null => false
  | some (.arr xs) => !xs.isEmpty
  | some (.obj fs) => !fs.isEmpty

/-! ## OpenAI proxy path (`src/app.py`, `proxy_request`) -/

/-- What happened when the proxy talked to its upstream inside the `try`
block: a parsed JSON response, or one of the `httpx` exception kinds.
(`resp.json()` failing to parse is one of the "other" exceptions — it is
raised inside the same `try`.) -/
inductive UpstreamOutcome where
  | ok (status : Nat) (body : JVal)
  | connectError (msg : String)
  | timeoutError (msg : String)
  | otherError (msg : String)
  deriving Repr

/-- The observable outcome of `proxy_request`: a JSON response with a status
code (with a flag recording whether the upstream was contacted), a streaming
response, an exception that escaped the handler chain (the framework's bare
500 — no `proxy_error` body), or an input outside the modelled fragment. -/
inductive ProxyOutcome where
  | response (status : Nat) (body : JVal) (contactedUpstream : Bool)
  | streamResponse (status : Nat)
  | unhandled (msg : String)
  | unmodelled
  deriving Repr

/-- Strip one element of `choices`: a string `message.content` is stripped;
otherwise a string `text` is; shapes on which the Python code would raise
(`choices` elements that are not objects, a non-object `message`) are out of
the modelled fragment. -/
def stripChoice (c : JVal) : Option JVal :=
  match c with
  | .obj fs =>
    match objGet fs "message" with
    | some (.obj mfs) =>
      match objGet mfs "content" with
      | some (.str s) =>
        some (.obj (objSet fs "message"
          (.obj (objSet mfs "content" (.str (strip_think_chain_from_text s))))))
      | _ =>
        match objGet fs "text" with
        | some (.str s) => some (.obj (objSet fs "text" (.str (strip_think_chain_from_text s))))
        | _ => some (.obj fs)
    | some _ => none
    | none =>
      match objGet fs "text" with
      | some (.str s) => some (.obj (objSet fs "text" (.str (strip_think_chain_from_text s))))
      | _ => some (.obj fs)
  | _ => none

/-- Strip a whole `choices` list. -/
def stripChoiceList : List JVal → Option (List JVal)
  | [] => some []
  | c :: cs =>
    match stripChoice c, stripChoiceList cs with
    | some c', some cs' => some (c' :: cs')
    | _, _ => none

/-- The `STRIP_THINKING` transform of the non-streaming response body
(`app.py:243-249`). -/
def stripOkBody (stripFlag : Bool) (b : JVal) : Option JVal :=
  if !stripFlag then some b
  else
    match b with
    | .obj fs =>
      match objGet fs "choices" with
      | none => some (.obj fs)
      | some (.arr cs) =>
        (stripChoiceList cs).map (fun cs' => .obj (objSet fs "choices" (.arr cs')))
      | some _ => none
    | _ => none

/-- `str.rstrip()`. -/
def pyRStrip (s : List Char) : List Char :=
  (s.reverse.dropWhile isPySpace).reverse

/-- The `DISABLE_THINKING` request mutation (`app.py:220-225`): append a
`/no_think` system message, or suffix the prompt. -/
def applyNoThink (disable : Bool) (fs : List (String × JVal)) :
    List (String × JVal) :=
  if !disable then fs
  else
    match objGet fs "messages" with
    | some (.arr ms) =>
      objSet fs "messages"
        (.arr (ms ++ [.obj [("role", .str "system"), ("content", .str "/no_think")]]))
    | _ =>
      match objGet fs "prompt" with
      | some (.str p) =>
        objSet fs "prompt" (.str ⟨pyRStrip p.data ++ " /no_think".data⟩)
      | _ => fs

/-- The forwarding block of `proxy_request` (`app.py:233-348`): everything
inside the `try` around the upstream call, with the `except` arms —
`httpx.ConnectError` → 502 `upstream_connection_failed`,
`httpx.TimeoutException` → 504 `upstream_timeout`, anything else → 500
`proxy_error`.  `upstreamName` is the configured `UPSTREAM_URL` used in the
messages. -/
def forwardRequest (stripFlag : Bool) (upstreamName : String)
    (payload : List (String × JVal)) (upstream : UpstreamOutcome) :
    ProxyOutcome :=
  match upstream with
  | .connectError msg =>
    .response 502 (.obj
      [("error", .str "upstream_connection_failed"),
       ("message", .str ("Could not connect to upstream server at " ++ upstreamName)),
       ("details", .str msg)]) true
  | .timeoutError msg =>
    .response 504 (.obj
      [("error", .str "upstream_timeout"),
       ("message", .str ("Upstream server at " ++ upstreamName ++ " did not respond in time")),
       ("details", .str msg)]) true
  | .otherError msg =>
    .response 500 (.obj
      [("error", .str "proxy_error"),
       ("message", .str "An unexpected error occurred while proxying the request"),
       ("details", .str msg)]) true
  | .ok status body =>
    if truthy (objGet payload "stream") then .streamResponse status
    else
      match stripOkBody stripFlag body with
      | some body' => .response status body' true
      | none => .unmodelled

/-- `proxy_request` (`src/app.py:197`): an unparseable JSON body is answered
`400` immediately, before the upstream is contacted; then the `model` field
is rewritten through `rewrite_model` — *outside* the `try` block, so an
exception raised there (the malformed-regex `re.error`) escapes the handler
chain entirely; then the request is forwarded and the response mapped by the
handlers above. -/
def proxy_request (tbl : List (String × String)) (stripFlag disableThinking : Bool)
    (upstreamName : String) (body : Option JVal) (upstream : UpstreamOutcome) :
    ProxyOutcome :=
  match body with
  | none => .response 400 (.obj [("error", .str "Invalid JSON in request body")]) false
  | some (.obj fs) =>
    let afterRewrite : Option (List (String × JVal)) ⊕ ProxyOutcome :=
      match objGet fs "model" with
      | some (.str m) =>
        match rewrite_model tbl m with
        | .ok m' => .inl (some (objSet fs "model" (.str m')))
        | .reError => .inr (.unhandled "re.error")
        | .unmodelled => .inr .unmodelled
      | some _ => .inr .unmodelled
      | none => .inl (some fs)
    match afterRewrite with
    | .inr out => out
    | .inl none => .unmodelled
    | .inl (some fs') =>
      forwardRequest stripFlag upstreamName (applyNoThink disableThinking fs') upstream
  | some _ => .unmodelled

/-! ## OpenAI-compatible adapter
(`src/smolrouter/providers.py`, `OpenAIProvider.generate_completion`) -/

/-- How the upstream call inside `generate_completion` went:
`raise_for_status` turns a non-2xx into `httpx.HTTPStatusError` whose
response body may or may not parse as JSON; `httpx.TimeoutException` and
`httpx.ConnectError` are the transport failures; anything else is the
catch-all. -/
inductive OAIUpstream where
  | ok (body : JVal)
  | httpError (status : Nat) (body : Option JVal)
  | timeout
  | connectError (msg : String)
  | otherError (msg typeName : String)
  deriving Repr

/-- `OpenAIProvider.generate_completion` (`providers.py:297`): returns
`(body, status)` on every path.  A non-2xx upstream response with a
parseable JSON body is returned *as-is* with the upstream's status; one with
an unparseable body yields a synthesized `api_error`; timeout / connection /
unexpected failures yield `timeout_error` (408), `connection_error` (503)
and `api_error` (500). -/
def generate_completion (timeoutSecs : Nat) (upstream : OAIUpstream) :
    JVal × Nat :=
  match upstream with
  | .ok body => (body, 200)
  | .httpError status (some errBody) => (errBody, status)
  | .httpError status none =>
    (.obj [("error", .obj
      [("message", .str ("OpenAI API error: " ++ toString status)),
       ("type", .str "api_error"),
       ("code", .str (toString status))])], status)
  | .timeout =>
    (.obj [("error", .obj
      [("message", .str ("Request to OpenAI API timed out after " ++ toString timeoutSecs ++ "s")),
       ("type", .str "timeout_error"),
       ("code", .str "timeout")])], 408)
  | .connectError msg =>
    (.obj [("error", .obj
      [("message", .str ("Failed to connect to OpenAI API: " ++ msg)),
       ("type", .str "connection_error"),
       ("code", .str "connection_failed")])], 503)
  | .otherError msg typeName =>
    let errMsg := if pyStrip msg.data ≠ [] then msg
                  else "Unknown error of type " ++ typeName
    (.obj [("error", .obj
      [("message", .str ("Failed to call OpenAI API: " ++ errMsg)),
       ("type", .str "api_error")])], 500)

/-- Extract `body.error.type` when it is a string. -/
def errorType (b : JVal) : Option String :=
  match b with
  | .obj fs =>
    match objGet fs "error" with
    | some (.obj efs) =>
      match objGet efs "type" with
      | some (.str t) => some t
      | _ => none
    | _ => none
  | _ => none

/-- Extract the top-level `error` field when it is a string (the proxy's
boundary bodies). -/
def errorField (b : JVal) : Option String :=
  match b with
  | .obj fs =>
    match objGet fs "error" with
    | some (.str e) => some e
    | _ => none
  | _ => none

/-! ## Post-request bookkeeping
(`google_genai_provider.py`, `_update_api_key_stats`) -/

/-- `_update_api_key_stats` (`google_genai_provider.py:282`): fetch the
quota row (through the hash), then on success bump the counters; on failure
classify the error text — an invalid-key error triggers the cross-model bulk
update, a quota-exhaustion error stamps the exhaustion instant, anything
else is a plain failure mark. -/
def update_api_key_stats (h : String → String) (store : Store)
    (api_key model provider : String) (success : Bool) (tokens : Nat)
    (error : Option String) (now : PacificNow) : Store :=
  let (_, store') := get_or_create_quota h store api_key provider model now.date now.absMicro
  let κ : QKey := (h api_key, provider, model)
  if success then mark_request_success store' κ tokens now.absMicro
  else if is_invalid_key_error (error.getD "") then
    mark_invalid_all_models h store' api_key provider
  else if is_quota_exhausted_error (error.getD "") then
    mark_request_failure store' κ error true false now.absMicro now.absMicro
  else
    mark_request_failure store' κ error false false now.absMicro now.absMicro

/-- What a quota row looks like right after a `_get_quota_record` fetch on a
given Pacific date: an absent row becomes the freshly created one, a row
from a previous date is daily-reset, a same-date row is untouched. -/
def normalizeRec (d : String) (n : Int) : Option QuotaRecord → QuotaRecord
  | none =>
    { requests_today := 0, tokens_today := 0, last_reset_date := d,
      quota_exhausted_at := none, invalid_key := false, error_count := 0,
      last_error := none, created_at := n, updated_at := n }
  | some r =>
    if r.last_reset_date = d then r
    else
      { r with requests_today := 0, tokens_today := 0,
               quota_exhausted_at := none, last_reset_date := d,
               error_count := r.error_count - 5, updated_at := n }

/-- Mid-selection store coherence: every row either still has its entry
value or has been fetch-normalized for today. -/
def Coh (d : String) (n : Int) (store₀ S : Store) : Prop :=
  ∀ κ : QKey, lookupStore S κ = lookupStore store₀ κ ∨
    lookupStore S κ = some (normalizeRec d n (lookupStore store₀ κ))

/-! ## Normal-form predicates for the stripper's output -/

/-- Is the head of the list (if any) not whitespace? -/
def headNotSpace : List Char → Bool
  | [] => true
  | c :: _ => !isPySpace c

/-- Is the head of the list (if any) not punctuation? -/
def headNotPunct : List Char → Bool
  | [] => true
  | c :: _ => !isPunct c

/-- A pairwise scan: `f` sees each character and its successor. -/
def pairwiseOk (f : Char → List Char → Bool) : List Char → Bool
  | [] => true
  | c :: cs => f c cs && pairwiseOk f cs

/-- Every whitespace character is a plain space. -/
def spaceOnlyB : List Char → Bool :=
  pairwiseOk (fun c _ => !isPySpace c || c = ' ')

/-- No two adjacent whitespace characters. -/
def noTwoSpacesB : List Char → Bool :=
  pairwiseOk (fun c cs => !isPySpace c || headNotSpace cs)

/-- No whitespace character directly followed by punctuation. -/
def noSpacePunctB : List Char → Bool :=
  pairwiseOk (fun c cs => !isPySpace c || headNotPunct cs)

/-- Drop trailing characters satisfying `q` (the right half of a strip). -/
def dropTrailing (q : Char → Bool) (l : List Char) : List Char :=
  (l.reverse.dropWhile q).reverse

/-! # Theorems -/

/-- C4: for every model name `m` and mapping table `T`, if `m` is literally a
key of `T`, `rewrite_model` returns `T[m]` — the exact-match branch runs
before the regex loop, so regex entries that also match and the table's
iteration order are irrelevant. -/
theorem C4_exact_match_precedence (tbl : List (String × String)) (m t : String)
    (hm : lookupTable tbl m = some t) : rewrite_model tbl m = .ok t := by
  unfold rewrite_model
  rw [hm]

/-- Witness for C4 at a table whose regex entry also matches the name. -/
theorem C4_exact_match_precedence_witness :
    lookupTable [("old-model", "new-model"), ("/old-(.*)/", "regex-\\1")] "old-model"
      = some "new-model" ∧
    rewrite_model [("old-model", "new-model"), ("/old-(.*)/", "regex-\\1")] "old-model"
      = .ok "new-model" :=
  ⟨by decide, C4_exact_match_precedence _ _ _ (by decide)⟩

/-- C6 counterexample: with the malformed regex entry `"/[/"` in the table,
rewriting `"foo"` raises `re.error` to the caller (there is no try/except in
`rewrite_model`), instead of skipping the entry — rewriting as if the entry
were absent would have returned `"foo"`. -/
theorem C6_malformed_regex_raises_ce :
    rewrite_model [("/[/", "x")] "foo" = .reError ∧
    rewrite_model [] "foo" = .ok "foo" := by
  exact ⟨rfl, rfl⟩

/-- C6 amended: a malformed regex entry reached by the regex loop makes
`rewrite_model` raise the regex-compilation error to its caller; it is not
logged-and-skipped.  (Only an unparseable mapping *table* degrades to an
empty table, at configuration load.) -/
theorem C6_malformed_regex_raises (m tgt : String) (rest : List (String × String))
    (hm : lookupTable (("/[/", tgt) :: rest) m = none) :
    rewrite_model (("/[/", tgt) :: rest) m = .reError := by
  unfold rewrite_model
  rw [hm]
  rfl

/-- Witness for C6 at a concrete table and name. -/
theorem C6_malformed_regex_raises_witness :
    lookupTable [("/[/", "x")] "bar" = none ∧
    rewrite_model [("/[/", "x")] "bar" = .reError :=
  ⟨by decide, C6_malformed_regex_raises _ _ _ (by decide)⟩

/-- C3 counterexample: fetching a quota row whose stored `last_reset_date`
(`"2025-01-01"`) differs from today's Pacific date (`"2025-01-02"`) *does*
mutate the persisted record: `get_or_create_quota` zeroes `requests_today`
and `tokens_today`, clears `quota_exhausted_at`, decays `error_count` by 5
and advances `last_reset_date`, then saves — the stored row afterwards
differs from the row before the fetch. -/
theorem C3_selection_fetch_mutates_ce :
    (get_or_create_quota (fun s => s)
        [(("k1", "prov", "m"), ⟨7, 3, "2025-01-01", some (.dt 5), false, 9, some "boom", 1, 2⟩)]
        "k1" "prov" "m" "2025-01-02" 99).1.requests_today = 0 ∧
    lookupStore (get_or_create_quota (fun s => s)
        [(("k1", "prov", "m"), ⟨7, 3, "2025-01-01", some (.dt 5), false, 9, some "boom", 1, 2⟩)]
        "k1" "prov" "m" "2025-01-02" 99).2 ("k1", "prov", "m") ≠
      some ⟨7, 3, "2025-01-01", some (.dt 5), false, 9, some "boom", 1, 2⟩ := by
  exact ⟨by decide, by decide⟩

/-- C3 amended: the selection-time fetch leaves a same-date row untouched,
but a row whose stored reset date differs from today's Pacific date is
daily-reset *and saved*: `requests_today` and `tokens_today` become 0,
`quota_exhausted_at` is cleared, `last_reset_date` advances to today,
`error_count` decays by 5 (floor 0) and `updated_at` is refreshed. -/
theorem C3_fetch_reset_behaviour (h : String → String) (store : Store)
    (k p m d : String) (n : Int) (r : QuotaRecord)
    (hr : lookupStore store (h k, p, m) = some r) :
    (r.last_reset_date = d → get_or_create_quota h store k p m d n = (r, store)) ∧
    (r.last_reset_date ≠ d →
      get_or_create_quota h store k p m d n =
        ({ r with requests_today := 0, tokens_today := 0,
                  quota_exhausted_at := none, last_reset_date := d,
                  error_count := r.error_count - 5, updated_at := n },
         writeStore store (h k, p, m)
           { r with requests_today := 0, tokens_today := 0,
                    quota_exhausted_at := none, last_reset_date := d,
                    error_count := r.error_count - 5, updated_at := n })) := by
  simp only [get_or_create_quota, hr]
  constructor
  · intro hd
    simp [hd]
  · intro hd
    simp [hd]

/-- Witness for C3 at a stale-dated concrete row. -/
theorem C3_fetch_reset_behaviour_witness :
    lookupStore [(("k1", "prov", "m"),
        (⟨7, 3, "2025-01-01", some (.dt 5), false, 9, some "boom", 1, 2⟩ : QuotaRecord))]
        ("k1", "prov", "m")
      = some ⟨7, 3, "2025-01-01", some (.dt 5), false, 9, some "boom", 1, 2⟩ ∧
    get_or_create_quota (fun s => s)
        [(("k1", "prov", "m"), ⟨7, 3, "2025-01-01", some (.dt 5), false, 9, some "boom", 1, 2⟩)]
        "k1" "prov" "m" "2025-01-02" 99 =
      (⟨0, 0, "2025-01-02", none, false, 4, some "boom", 1, 99⟩,
       [(("k1", "prov", "m"), ⟨0, 0, "2025-01-02", none, false, 4, some "boom", 1, 99⟩)]) := by
  refine ⟨by decide, ?_⟩
  exact (C3_fetch_reset_behaviour (fun s => s)
    [(("k1", "prov", "m"), ⟨7, 3, "2025-01-01", some (.dt 5), false, 9, some "boom", 1, 2⟩)]
    "k1" "prov" "m" "2025-01-02" 99
    ⟨7, 3, "2025-01-01", some (.dt 5), false, 9, some "boom", 1, 2⟩
    (by decide)).2 (by decide)

/-- C9 counterexample: an upstream failure whose HTTP error response carries
a parseable JSON body is passed through *as-is* — here a 400 with body
`{"detail": "bad"}`, which has no `type` field at all, so the returned body
is not a structured error object with `type` in
`{timeout_error, connection_error, api_error}`. -/
theorem C9_passthrough_body_ce :
    generate_completion 30 (.httpError 400 (some (.obj [("detail", .str "bad")])))
      = (.obj [("detail", .str "bad")], 400) ∧
    errorType (.obj [("detail", .str "bad")]) = none := by
  exact ⟨rfl, rfl⟩

/-- C9 amended: `generate_completion` returns a `(body, status)` pair on
every upstream-failure path; on timeout, connection failure, unexpected
exceptions, and non-2xx responses whose body does not parse as JSON, the
body is a structured error whose `type` is `timeout_error` (status 408),
`connection_error` (503) or `api_error` (500, or the upstream status); a
non-2xx response with a parseable JSON body is instead passed through
unchanged together with its status code. -/
theorem C9_error_taxonomy (t status : Nat) (msg ty : String) (b : JVal) :
    (errorType (generate_completion t .timeout).1 = some "timeout_error" ∧
      (generate_completion t .timeout).2 = 408) ∧
    (errorType (generate_completion t (.connectError msg)).1 = some "connection_error" ∧
      (generate_completion t (.connectError msg)).2 = 503) ∧
    (errorType (generate_completion t (.otherError msg ty)).1 = some "api_error" ∧
      (generate_completion t (.otherError msg ty)).2 = 500) ∧
    (errorType (generate_completion t (.httpError status none)).1 = some "api_error" ∧
      (generate_completion t (.httpError status none)).2 = status) ∧
    generate_completion t (.httpError status (some b)) = (b, status) := by
  exact ⟨⟨rfl, rfl⟩, ⟨rfl, rfl⟩, ⟨rfl, rfl⟩, ⟨rfl, rfl⟩, rfl⟩

/-- C8 counterexample: with the malformed regex entry `"/[/"` in the model
map and a JSON-valid request body, the `re.error` raised by the model
rewrite — an unexpected internal fault — happens *before* the `try` block,
so it escapes `proxy_request` uncaught instead of producing the 500
`proxy_error` response. -/
theorem C8_rewrite_fault_escapes_ce :
    proxy_request [("/[/", "t")] true false "http://upstream"
      (some (.obj [("model", .str "foo")])) (.otherError "boom")
      = .unhandled "re.error" := by
  rfl

/-- C8 amended: at the proxy boundary, an unparseable JSON body is answered
400 without contacting the upstream (the response does not depend on the
upstream at all); once the model rewrite succeeds, an unreachable upstream
yields 502 with `error = "upstream_connection_failed"`, an upstream timeout
yields 504, and any other fault raised inside the forwarding block yields
500 with a `proxy_error` body — but a fault raised by the model-rewrite step
itself (the malformed-regex `re.error`) escapes the handler chain uncaught. -/
theorem C8_error_boundary :
    (∀ (tbl : List (String × String)) (sf dis : Bool) (up : String)
        (e : UpstreamOutcome),
      proxy_request tbl sf dis up none e
        = .response 400 (.obj [("error", .str "Invalid JSON in request body")]) false) ∧
    (∀ (tbl : List (String × String)) (sf dis : Bool) (up : String)
        (fs : List (String × JVal)) (m m' msg : String),
      objGet fs "model" = some (.str m) → rewrite_model tbl m = .ok m' →
      proxy_request tbl sf dis up (some (.obj fs)) (.connectError msg)
        = .response 502 (.obj
            [("error", .str "upstream_connection_failed"),
             ("message", .str ("Could not connect to upstream server at " ++ up)),
             ("details", .str msg)]) true ∧
      proxy_request tbl sf dis up (some (.obj fs)) (.timeoutError msg)
        = .response 504 (.obj
            [("error", .str "upstream_timeout"),
             ("message", .str ("Upstream server at " ++ up ++ " did not respond in time")),
             ("details", .str msg)]) true ∧
      proxy_request tbl sf dis up (some (.obj fs)) (.otherError msg)
        = .response 500 (.obj
            [("error", .str "proxy_error"),
             ("message", .str "An unexpected error occurred while proxying the request"),
             ("details", .str msg)]) true ∧
      (rewrite_model tbl m = .reError →
        ∀ e, proxy_request tbl sf dis up (some (.obj fs)) e = .unhandled "re.error")) := by
  constructor
  · intro tbl sf dis up e
    rfl
  · intro tbl sf dis up fs m m' msg hmf hrw
    refine ⟨?_, ?_, ?_, ?_⟩
    · simp only [proxy_request, hmf, hrw]
      rfl
    · simp only [proxy_request, hmf, hrw]
      rfl
    · simp only [proxy_request, hmf, hrw]
      rfl
    · intro hre e
      simp only [proxy_request, hmf, hre]

/-- Witness for C8 at a concrete table, body and upstream. -/
theorem C8_error_boundary_witness :
    proxy_request [("gpt-4", "llama")] true false "http://u" none (.ok 200 (.obj []))
      = .response 400 (.obj [("error", .str "Invalid JSON in request body")]) false ∧
    proxy_request [("gpt-4", "llama")] true false "http://u"
      (some (.obj [("model", .str "gpt-4")])) (.connectError "refused")
      = .response 502 (.obj
          [("error", .str "upstream_connection_failed"),
           ("message", .str "Could not connect to upstream server at http://u"),
           ("details", .str "refused")]) true :=
  ⟨C8_error_boundary.1 [("gpt-4", "llama")] true false "http://u" (.ok 200 (.obj [])),
   (C8_error_boundary.2 [("gpt-4", "llama")] true false "http://u"
      [("model", .str "gpt-4")] "gpt-4" "llama" "refused" (by rfl) (by rfl)).1⟩

/-- Dropping a leading-character run is the identity when the head (if any)
is not that character. -/
theorem dropWhile_eq_self_of_headIs_false (q : Char) (l : List Char)
    (hl : headIs q l = false) : l.dropWhile (· = q) = l := by
  cases l with
  | nil => rfl
  | cons c cs =>
    simp only [headIs, decide_eq_false_iff_not] at hl
    simp [List.dropWhile_cons, hl]

/-- `pattern.strip("/")` of `"/" ++ lits ++ "/"` is `lits` when `lits` is
nonempty and neither starts nor ends with a slash. -/
theorem stripSlashes_sandwich (lits : List Char) (hne : lits ≠ [])
    (hhead : headIs '/' lits = false) (hlast : lastIs '/' lits = false) :
    stripSlashes ('/' :: (lits ++ ['/'])) = lits := by
  cases lits with
  | nil => exact absurd rfl hne
  | cons c cs =>
    simp only [headIs, decide_eq_false_iff_not] at hhead
    unfold lastIs at hlast
    unfold stripSlashes
    have h1 : ('/' :: ((c :: cs) ++ ['/'])).dropWhile (· = '/') = (c :: cs) ++ ['/'] := by
      simp [List.dropWhile_cons, hhead]
    rw [h1]
    have h2 : ((c :: cs) ++ ['/']).reverse = '/' :: (c :: cs).reverse := by simp
    rw [h2]
    have h3 : ('/' :: (c :: cs).reverse).dropWhile (· = '/')
        = (c :: cs).reverse.dropWhile (· = '/') := by
      simp [List.dropWhile_cons]
    rw [h3, dropWhile_eq_self_of_headIs_false '/' (c :: cs).reverse hlast,
        List.reverse_reverse]

/-- Compiling a pattern of safe literal characters yields the literal items. -/
theorem compileRe_all_lits (l : List Char) (h : ∀ c ∈ l, isMetaChar c = false) :
    compileRe l = .ok (l.map .lit) := by
  induction l with
  | nil => rfl
  | cons c rest ih =>
    have hc : isMetaChar c = false := h c (List.mem_cons_self _ _)
    have hrest := ih (fun x hx => h x (List.mem_cons_of_mem _ hx))
    have hcp : c ≠ '(' := by
      intro heq
      rw [heq] at hc
      exact absurd hc (by decide)
    have hcb : c ≠ '[' := by
      intro heq
      rw [heq] at hc
      exact absurd hc (by decide)
    unfold compileRe
    rw [if_neg hcp, if_neg hcb, if_neg (by simp [hc]), hrest]
    rfl

/-- A literal-item pattern consumes exactly those characters off the front
and captures nothing; the rest of the string does not matter (anchored
prefix match). -/
theorem matchItems_all_lits (l suffix : List Char) :
    matchItems (l.map .lit) (l ++ suffix) = some ([], suffix) := by
  induction l with
  | nil => rfl
  | cons c rest ih =>
    simp [matchItems, ih]

/-- C5: the regex entries of the table are matched with `re.match` — anchored
at the start of the model name and *not* required to consume it all — so for
any slash-delimited pattern of plain literal characters, every model name
that merely starts with those characters is rewritten to the (expanded)
target; and back-reference expansion works, e.g. the table
`{"/old-(.*)/": "new-\\1"}` rewrites `"old-variant"` to `"new-variant"`. -/
theorem C5_regex_prefix_semantics :
    (∀ (lits suffix : List Char) (tgt tgtExp : String),
        lits ≠ [] →
        headIs '/' lits = false →
        lastIs '/' lits = false →
        (∀ c ∈ lits, isMetaChar c = false) →
        expandTemplate [] tgt.data = some tgtExp.data →
        rewrite_model [(⟨'/' :: (lits ++ ['/'])⟩, tgt)] ⟨lits ++ suffix⟩
          = .ok tgtExp) ∧
    rewrite_model [("/old-(.*)/", "new-\\1")] "old-variant" = .ok "new-variant" := by
  constructor
  · intro lits suffix tgt tgtExp hne hhead hlast hsafe hexp
    rcases tgt with ⟨td⟩
    rcases tgtExp with ⟨te⟩
    have hexp' : expandTemplate [] td = some te := hexp
    have hkm : (⟨'/' :: (lits ++ ['/'])⟩ : String) ≠ ⟨lits ++ suffix⟩ := by
      intro heq
      cases lits with
      | nil => exact hne rfl
      | cons c cs =>
        simp only [headIs, decide_eq_false_iff_not] at hhead
        have := congrArg String.data heq
        simp only [List.cons_append] at this
        exact hhead (List.head_eq_of_cons_eq this).symm
    have hlk : lookupTable [(⟨'/' :: (lits ++ ['/'])⟩, ⟨td⟩)] ⟨lits ++ suffix⟩ = none := by
      unfold lookupTable
      rw [if_neg hkm]
      rfl
    unfold rewrite_model
    rw [hlk]
    unfold rewriteRegexLoop
    dsimp only
    rw [if_pos (by simp [headIs, lastIs, List.reverse_cons, List.reverse_append])]
    rw [stripSlashes_sandwich lits hne hhead hlast, compileRe_all_lits lits hsafe]
    dsimp only
    rw [matchItems_all_lits lits suffix]
    dsimp only
    rw [hexp']
  · decide

/-- Witness for C5: the slash-delimited literal pattern `gpt-` rewrites
`"gpt-4o"`, which merely starts with those characters, to the target. -/
theorem C5_regex_prefix_semantics_witness :
    rewrite_model [("/gpt-/", "claude")] "gpt-4o" = .ok "claude" ∧
    rewrite_model [("/old-(.*)/", "new-\\1")] "old-variant" = .ok "new-variant" :=
  ⟨C5_regex_prefix_semantics.1 ['g', 'p', 't', '-'] ['4', 'o'] "claude" "claude"
      (by decide) (by decide) (by decide) (by decide) (by decide),
   C5_regex_prefix_semantics.2⟩

/-- Overwriting a row leaves every other triple's lookup unchanged. -/
theorem lookupStore_writeStore_ne (store : Store) (κ κ' : QKey) (r : QuotaRecord)
    (hne : κ' ≠ κ) : lookupStore (writeStore store κ r) κ' = lookupStore store κ' := by
  induction store with
  | nil => rfl
  | cons kr rest ih =>
    rcases kr with ⟨kk, rr⟩
    dsimp only [writeStore, List.map_cons] at ih ⊢
    by_cases hk : kk = κ
    · rw [if_pos hk]
      dsimp only [lookupStore]
      have hk2 : ¬(kk = κ') := fun hgg => hne (by rw [← hgg]; exact hk)
      rw [if_neg (fun hgg => hne hgg.symm), if_neg hk2]
      exact ih
    · rw [if_neg hk]
      dsimp only [lookupStore]
      by_cases hkk : kk = κ'
      · rw [if_pos hkk, if_pos hkk]
      · rw [if_neg hkk, if_neg hkk]
        exact ih

/-- Appending a fresh row only affects the lookup of its own triple, and
only when the triple was absent. -/
theorem lookupStore_append_single (store : Store) (κ κ' : QKey) (q : QuotaRecord) :
    lookupStore (store ++ [(κ, q)]) κ' =
      match lookupStore store κ' with
      | some r => some r
      | none => if κ = κ' then some q else none := by
  induction store with
  | nil => rfl
  | cons kr rest ih =>
    rcases kr with ⟨kk, rr⟩
    dsimp only [List.cons_append, lookupStore]
    by_cases hkk : kk = κ'
    · rw [if_pos hkk, if_pos hkk]
    · rw [if_neg hkk, if_neg hkk]
      exact ih

/-- The triples whose lookup `get_or_create_quota` can change are exactly the
fetched key's own `(hash, provider, model)`. -/
theorem get_or_create_quota_frame (h : String → String) (store : Store)
    (k p m d : String) (n : Int) (κ' : QKey)
    (hne : κ' ≠ (h k, p, m)) :
    lookupStore (get_or_create_quota h store k p m d n).2 κ' = lookupStore store κ' := by
  simp only [get_or_create_quota]
  rcases hl : lookupStore store (h k, p, m) with _ | r
  · dsimp only
    rw [lookupStore_append_single]
    rcases hl2 : lookupStore store κ' with _ | r'
    · rw [if_neg (fun hgg => hne hgg.symm)]
    · rfl
  · dsimp only
    by_cases hd : r.last_reset_date ≠ d
    · rw [if_pos hd]
      exact lookupStore_writeStore_ne store _ κ' _ hne
    · rw [if_neg hd]

/-- The invalid-key bulk update flags exactly the rows whose stored hash and
provider match; every other row's lookup is untouched. -/
theorem mark_invalid_frame (h : String → String) (store : Store)
    (k p : String) (κ' : QKey) (hne : κ'.1 ≠ h k) :
    lookupStore (mark_invalid_all_models h store k p) κ' = lookupStore store κ' := by
  induction store with
  | nil => rfl
  | cons kr rest ih =>
    rcases kr with ⟨kk, rr⟩
    dsimp only [mark_invalid_all_models, List.map_cons] at ih ⊢
    by_cases hc : kk.1 = h k ∧ kk.2.1 = p
    · rw [if_pos hc]
      dsimp only [lookupStore]
      have hkne : kk ≠ κ' := fun hgg => hne (hgg ▸ hc.1)
      rw [if_neg hkne, if_neg hkne]
      exact ih
    · rw [if_neg hc]
      dsimp only [lookupStore]
      by_cases hkk : kk = κ'
      · rw [if_pos hkk, if_pos hkk]
      · rw [if_neg hkk, if_neg hkk]
        exact ih

/-- The failure/success marks at a triple leave other triples unchanged. -/
theorem mark_ops_frame (store : Store) (κ κ' : QKey) (tokens : Nat)
    (error : Option String) (qe iv : Bool) (np n : Int) (hne : κ' ≠ κ) :
    lookupStore (mark_request_success store κ tokens n) κ' = lookupStore store κ' ∧
    lookupStore (mark_request_failure store κ error qe iv np n) κ' = lookupStore store κ' := by
  constructor
  · unfold mark_request_success
    rcases lookupStore store κ with _ | q
    · rfl
    · exact lookupStore_writeStore_ne store κ κ' _ hne
  · unfold mark_request_failure
    rcases lookupStore store κ with _ | q
    · rfl
    · exact lookupStore_writeStore_ne store κ κ' _ hne

/-- C10: quota rows are identified by the key's hash alone.  (1) Every store
operation factors through `hash_api_key`: two raw keys with the same hash
are indistinguishable to `get_or_create_quota` and to the whole post-request
bookkeeping, including the invalid-key bulk update — the raw key itself is
never consulted or stored.  (2) The bookkeeping for a key can only touch
rows whose `api_key_hash` equals that key's hash (for the same provider).
(3) A fetch can only create or change the row at its own
`(hash, provider, model)` triple.  `hashlib.sha256(...).hexdigest()` is an
external library, modelled at its boundary as the abstract `h`. -/
theorem C10_store_keyed_by_hash (h : String → String) (store : Store)
    (k k' p m d : String) (n : Int) (success : Bool) (tokens : Nat)
    (error : Option String) (now : PacificNow)
    (hkk : h k = h k') :
    update_api_key_stats h store k m p success tokens error now
      = update_api_key_stats h store k' m p success tokens error now ∧
    get_or_create_quota h store k p m d n = get_or_create_quota h store k' p m d n ∧
    (∀ κ' : QKey, κ'.1 ≠ h k →
      lookupStore (update_api_key_stats h store k m p success tokens error now) κ'
        = lookupStore store κ') ∧
    (∀ κ' : QKey,
      lookupStore (get_or_create_quota h store k p m d n).2 κ' ≠ lookupStore store κ' →
      κ' = (h k, p, m)) := by
  refine ⟨?_, ?_, ?_, ?_⟩
  · unfold update_api_key_stats get_or_create_quota mark_invalid_all_models
    simp only [hkk]
  · unfold get_or_create_quota
    simp only [hkk]
  · intro κ' hne
    have hneκ : κ' ≠ (h k, p, m) := by
      intro hgg
      rw [hgg] at hne
      exact hne rfl
    simp only [update_api_key_stats]
    rcases hg : get_or_create_quota h store k p m now.date now.absMicro with ⟨q, store'⟩
    have hframe : lookupStore store' κ' = lookupStore store κ' := by
      have h5 := get_or_create_quota_frame h store k p m now.date now.absMicro κ' hneκ
      rw [hg] at h5
      exact h5
    dsimp only
    by_cases hsucc : success = true
    · rw [if_pos hsucc,
        (mark_ops_frame store' (h k, p, m) κ' tokens error false false
          now.absMicro now.absMicro hneκ).1, hframe]
    · rw [if_neg hsucc]
      by_cases hinv : is_invalid_key_error (error.getD "") = true
      · rw [if_pos hinv, mark_invalid_frame h store' k p κ' hne, hframe]
      · rw [if_neg hinv]
        by_cases hq : is_quota_exhausted_error (error.getD "") = true
        · rw [if_pos hq,
            (mark_ops_frame store' (h k, p, m) κ' tokens error true false
              now.absMicro now.absMicro hneκ).2, hframe]
        · rw [if_neg hq,
            (mark_ops_frame store' (h k, p, m) κ' tokens error false false
              now.absMicro now.absMicro hneκ).2, hframe]
  · intro κ' hch
    by_contra hneκ
    exact hch (get_or_create_quota_frame h store k p m d n κ' hneκ)

/-- Witness for C10 at a concrete store, key and instant. -/
theorem C10_store_keyed_by_hash_witness :
    update_api_key_stats (fun _ => "H") [] "k1" "m" "prov" true 5 none
        ⟨"2025-01-02", 7, 3600000000⟩
      = update_api_key_stats (fun _ => "H") [] "k2" "m" "prov" true 5 none
        ⟨"2025-01-02", 7, 3600000000⟩ ∧
    lookupStore (update_api_key_stats (fun _ => "H") [] "k1" "m" "prov" true 5 none
        ⟨"2025-01-02", 7, 3600000000⟩) ("OTHER", "prov", "m") = none := by
  have h := C10_store_keyed_by_hash (fun _ => "H") [] "k1" "k2" "prov" "m"
    "2025-01-02" 7 true 5 none ⟨"2025-01-02", 7, 3600000000⟩ rfl
  exact ⟨h.1, (h.2.2.1 ("OTHER", "prov", "m") (by decide)).trans (by decide)⟩

/-- Overwriting a present row makes its lookup return the new value. -/
theorem lookupStore_writeStore_self (store : Store) (κ : QKey)
    (r x : QuotaRecord) (hl : lookupStore store κ = some r) :
    lookupStore (writeStore store κ x) κ = some x := by
  induction store with
  | nil => cases hl
  | cons kr rest ih =>
    rcases kr with ⟨kk, rr⟩
    dsimp only [writeStore, List.map_cons] at *
    by_cases hk : kk = κ
    · rw [if_pos hk]
      dsimp only [lookupStore]
      rw [if_pos rfl]
    · rw [if_neg hk]
      dsimp only [lookupStore] at hl ⊢
      rw [if_neg hk] at hl ⊢
      exact ih hl

/-- A fetch-normalized row always carries today's date. -/
theorem normalizeRec_date (d : String) (n : Int) (x : Option QuotaRecord) :
    (normalizeRec d n x).last_reset_date = d := by
  rcases x with _ | r
  · rfl
  · simp only [normalizeRec]
    by_cases hd : r.last_reset_date = d
    · rw [if_pos hd]
      exact hd
    · rw [if_neg hd]

/-- The request counter of a fetch-normalized row is the claims' *effective*
daily count of the underlying stored row. -/
theorem effectiveCount_eq_normalize (h : String → String) (store : Store)
    (k p m d : String) (n : Int) :
    effectiveCount h store k p m d
      = (normalizeRec d n (lookupStore store (h k, p, m))).requests_today := by
  unfold effectiveCount
  rcases lookupStore store (h k, p, m) with _ | r
  · rfl
  · simp only [normalizeRec]
    by_cases hd : r.last_reset_date = d
    · rw [if_pos hd, if_pos hd]
    · rw [if_neg hd, if_neg hd]

/-- Fetch-normalization leaves the invalid flag exactly as stored. -/
theorem invalidOf_eq_normalize (h : String → String) (store : Store)
    (k p m d : String) (n : Int) :
    invalidOf h store k p m
      = (normalizeRec d n (lookupStore store (h k, p, m))).invalid_key := by
  unfold invalidOf
  rcases lookupStore store (h k, p, m) with _ | r
  · rfl
  · simp only [normalizeRec]
    by_cases hd : r.last_reset_date = d
    · rw [if_pos hd]
    · rw [if_neg hd]

/-- On a coherent mid-selection store, a `_get_quota_record` fetch returns
exactly the fetch-normalization of the *entry* store's row, and keeps the
store coherent. -/
theorem get_or_create_coh (h : String → String) (store₀ S : Store)
    (k p m d : String) (n : Int) (hcoh : Coh d n store₀ S) :
    (get_or_create_quota h S k p m d n).1
      = normalizeRec d n (lookupStore store₀ (h k, p, m)) ∧
    Coh d n store₀ (get_or_create_quota h S k p m d n).2 := by
  rcases hcoh (h k, p, m) with hA | hB
  · simp only [get_or_create_quota]
    rcases hl : lookupStore S (h k, p, m) with _ | r
    · rw [hl] at hA
      dsimp only
      refine ⟨by rw [← hA]; rfl, ?_⟩
      intro κ'
      have hfr0 : ∀ κ'', κ'' ≠ (h k, p, m) →
          lookupStore (S ++ [((h k, p, m), normalizeRec d n none)]) κ''
            = lookupStore S κ'' := by
        intro κ'' hκ
        rw [lookupStore_append_single]
        rcases hl2 : lookupStore S κ'' with _ | r'
        · rw [if_neg (fun hgg => hκ hgg.symm)]
        · rfl
      by_cases hκ : κ' = (h k, p, m)
      · right
        rw [hκ, ← hA]
        rw [lookupStore_append_single, hl]
        dsimp only
        rw [if_pos rfl]
        rfl
      · rcases hcoh κ' with h1 | h1
        · exact Or.inl ((hfr0 κ' hκ).trans h1)
        · exact Or.inr ((hfr0 κ' hκ).trans h1)
    · rw [hl] at hA
      dsimp only
      by_cases hd : r.last_reset_date ≠ d
      · rw [if_pos hd]
        refine ⟨by rw [← hA]; simp only [normalizeRec]; rw [if_neg hd], ?_⟩
        intro κ'
        by_cases hκ : κ' = (h k, p, m)
        · right
          rw [hκ, ← hA]
          simp only [normalizeRec]
          rw [if_neg hd]
          exact lookupStore_writeStore_self S _ r _ hl
        · have hfr := lookupStore_writeStore_ne S (h k, p, m) κ'
            { r with requests_today := 0, tokens_today := 0,
                     quota_exhausted_at := none, last_reset_date := d,
                     error_count := r.error_count - 5, updated_at := n } hκ
          rcases hcoh κ' with h1 | h1
          · exact Or.inl (hfr.trans h1)
          · exact Or.inr (hfr.trans h1)
      · rw [if_neg hd]
        push_neg at hd
        refine ⟨?_, hcoh⟩
        rw [← hA]
        simp only [normalizeRec]
        rw [if_pos hd]
  · simp only [get_or_create_quota]
    rw [hB]
    dsimp only
    rw [if_neg (by rw [normalizeRec_date]; exact fun hgg => hgg rfl)]
    exact ⟨rfl, hcoh⟩

/-- Membership is invariant under the stable insertion. -/
theorem mem_insertSorted {α : Type} (le : α → α → Bool) (x y : α) (l : List α) :
    x ∈ insertSorted le y l ↔ x = y ∨ x ∈ l := by
  induction l with
  | nil => simp [insertSorted]
  | cons z zs ih =>
    unfold insertSorted
    by_cases hle : le y z = true
    · rw [if_pos hle]
      simp
    · rw [if_neg hle]
      simp only [List.mem_cons, ih]
      tauto

/-- Membership is invariant under the insertion sort. -/
theorem mem_insSort {α : Type} (le : α → α → Bool) (x : α) (l : List α) :
    x ∈ insSort le l ↔ x ∈ l := by
  induction l with
  | nil => simp [insSort]
  | cons z zs ih =>
    unfold insSort
    rw [mem_insertSorted]
    simp only [List.mem_cons, ih]

/-- The filter-loop invariant: every `(key, count)` pair the loop collects —
beyond what was already accumulated — passed the invalid-key filter and the
daily-ceiling filter, judged against the fetch-normalization of the *entry*
store's row for that key. -/
theorem selectLoop_mem (h : String → String) (p m : String) (ceiling : Nat)
    (now : PacificNow) (store₀ : Store) :
    ∀ (ks : List String) (S : Store) (acc : List (String × Nat))
      (x : String × Nat),
      Coh now.date now.absMicro store₀ S →
      x ∈ (selectLoop h p m ceiling now ks S acc).1 →
      x ∈ acc ∨
      ((normalizeRec now.date now.absMicro
          (lookupStore store₀ (h x.1, p, m))).requests_today < ceiling ∧
       (normalizeRec now.date now.absMicro
          (lookupStore store₀ (h x.1, p, m))).invalid_key = false) := by
  intro ks
  induction ks with
  | nil =>
    intro S acc x _ hx
    exact Or.inl hx
  | cons k ks ih =>
    intro S acc x hcoh hx
    obtain ⟨hq, hcoh'⟩ := get_or_create_coh h store₀ S k p m now.date now.absMicro hcoh
    simp only [selectLoop] at hx
    rcases hg : get_or_create_quota h S k p m now.date now.absMicro with ⟨q, S'⟩
    rw [hg] at hx hq hcoh'
    dsimp only at hx hq hcoh'
    have hdate : q.last_reset_date = now.date := by
      rw [hq]
      exact normalizeRec_date _ _ _
    rw [if_pos hdate] at hx
    by_cases hinv : q.invalid_key = true
    · rw [if_pos hinv] at hx
      exact ih S' acc x hcoh' hx
    · rw [if_neg hinv] at hx
      by_cases hceil : ceiling ≤ q.requests_today
      · rw [if_pos hceil] at hx
        exact ih S' acc x hcoh' hx
      · rw [if_neg hceil] at hx
        have hgood : x = (k, q.requests_today) →
            (normalizeRec now.date now.absMicro
              (lookupStore store₀ (h x.1, p, m))).requests_today < ceiling ∧
            (normalizeRec now.date now.absMicro
              (lookupStore store₀ (h x.1, p, m))).invalid_key = false := by
          intro hxk
          rw [hxk]
          dsimp only
          rw [← hq]
          exact ⟨Nat.lt_of_not_le hceil, Bool.not_eq_true _ ▸ hinv⟩
        have hstep : x ∈ (selectLoop h p m ceiling now ks S'
            (acc ++ [(k, q.requests_today)])).1 →
            x ∈ acc ∨
            ((normalizeRec now.date now.absMicro
                (lookupStore store₀ (h x.1, p, m))).requests_today < ceiling ∧
             (normalizeRec now.date now.absMicro
                (lookupStore store₀ (h x.1, p, m))).invalid_key = false) := by
          intro hx'
          rcases ih S' (acc ++ [(k, q.requests_today)]) x hcoh' hx' with h1 | h1
          · rcases List.mem_append.mp h1 with h2 | h2
            · exact Or.inl h2
            · exact Or.inr (hgood (List.mem_singleton.mp h2))
          · exact Or.inr h1
        by_cases herr : 20 < q.error_count
        · rw [if_pos herr] at hx
          exact ih S' acc x hcoh' hx
        · rw [if_neg herr] at hx
          by_cases hqe : ((match q.last_error with
              | some e => is_quota_exhausted_error e
              | none => false) && q.last_reset_date = now.date) = true
          · rw [if_pos hqe] at hx
            rcases hex : q.quota_exhausted_at with _ | et
            · rw [hex] at hx
              dsimp only at hx
              exact hstep hx
            · rcases et with t | t | _
              · rw [hex] at hx
                dsimp only at hx
                by_cases ht : tdSeconds (now.absMicro - t) < 3600
                · rw [if_pos ht] at hx
                  exact ih S' acc x hcoh' hx
                · rw [if_neg ht] at hx
                  exact hstep hx
              · rw [hex] at hx
                dsimp only at hx
                by_cases ht : tdSeconds (now.absMicro - t) < 3600
                · rw [if_pos ht] at hx
                  exact ih S' acc x hcoh' hx
                · rw [if_neg ht] at hx
                  exact hstep hx
              · rw [hex] at hx
                dsimp only at hx
                exact ih S' acc x hcoh' hx
          · rw [if_neg hqe] at hx
            exact hstep hx

/-- C1: whenever key selection returns a key, that key's *effective* daily
count in the entry store (the stored count when the row's reset date is
today's Pacific date, else zero) is strictly below the per-day ceiling, and
the key is not flagged permanently invalid — the two exclusion filters are
judged before any key is returned. -/
theorem C1_selected_key_under_ceiling_and_valid (h : String → String)
    (cfgKeys : List String) (ceiling : Nat) (p m : String) (now : PacificNow)
    (store : Store) (k : String)
    (hsel : (select_best_api_key h cfgKeys ceiling p m now store).1 = .key k) :
    effectiveCount h store k p m now.date < ceiling ∧
    invalidOf h store k p m = false := by
  unfold select_best_api_key at hsel
  rcases hloop : selectLoop h p m ceiling now cfgKeys store [] with ⟨avail, store'⟩
  rw [hloop] at hsel
  dsimp only at hsel
  rcases hs : insSort pairLe avail with _ | ⟨⟨k0, c0⟩, t⟩ <;> rw [hs] at hsel <;>
    dsimp only at hsel
  · cases hsel
  · injection hsel with hk
    subst hk
    have hmem : (k0, c0) ∈ insSort pairLe avail := by
      rw [hs]
      exact List.mem_cons_self _ _
    have hmem2 : (k0, c0) ∈ avail := (mem_insSort pairLe _ avail).mp hmem
    have hloopmem := selectLoop_mem h p m ceiling now store cfgKeys store []
      (k0, c0) (fun κ => Or.inl rfl)
      (by rw [hloop]; exact hmem2)
    rcases hloopmem with habs | hP
    · exact absurd habs (List.not_mem_nil _)
    · refine ⟨?_, ?_⟩
      · rw [effectiveCount_eq_normalize h store k0 p m now.date now.absMicro]
        exact hP.1
      · rw [invalidOf_eq_normalize h store k0 p m now.date now.absMicro]
        exact hP.2

/-- Witness for C1: a two-key store where one key is invalid; selection
returns the other, whose effective count is below the ceiling. -/
theorem C1_selected_key_under_ceiling_and_valid_witness :
    effectiveCount (fun s => s)
      [(("k1", "prov", "m"), ⟨7, 3, "2025-01-01", some (.dt 5), false, 9, some "boom", 1, 2⟩),
       (("k2", "prov", "m"), ⟨3, 0, "2025-01-02", none, true, 0, none, 0, 0⟩)]
      "k1" "prov" "m" "2025-01-02" < 1500 ∧
    invalidOf (fun s => s)
      [(("k1", "prov", "m"), ⟨7, 3, "2025-01-01", some (.dt 5), false, 9, some "boom", 1, 2⟩),
       (("k2", "prov", "m"), ⟨3, 0, "2025-01-02", none, true, 0, none, 0, 0⟩)]
      "k1" "prov" "m" = false :=
  C1_selected_key_under_ceiling_and_valid (fun s => s) ["k1", "k2"] 1500 "prov" "m"
    ⟨"2025-01-02", 1000, 3600000000⟩
    [(("k1", "prov", "m"), ⟨7, 3, "2025-01-01", some (.dt 5), false, 9, some "boom", 1, 2⟩),
     (("k2", "prov", "m"), ⟨3, 0, "2025-01-02", none, true, 0, none, 0, 0⟩)]
    "k1" (by decide)

/-- Unfolding a pairwise scan at a cons cell. -/
theorem pairwiseOk_cons {f : Char → List Char → Bool} {c : Char} {l : List Char}
    (h : pairwiseOk f (c :: l) = true) : f c l = true ∧ pairwiseOk f l = true := by
  unfold pairwiseOk at h
  exact ⟨(Bool.and_eq_true _ _ ▸ h).1, (Bool.and_eq_true _ _ ▸ h).2⟩

/-- A pairwise scan survives dropping a prefix of matching characters. -/
theorem pairwiseOk_dropWhile (f : Char → List Char → Bool) (q : Char → Bool)
    (l : List Char) (h : pairwiseOk f l = true) :
    pairwiseOk f (l.dropWhile q) = true := by
  induction l with
  | nil => exact h
  | cons c cs ih =>
    rw [List.dropWhile_cons]
    by_cases hq : q c = true
    · rw [if_pos hq]
      exact ih (pairwiseOk_cons h).2
    · rw [if_neg hq]
      exact h

/-- A pairwise scan whose step only looks at the successor survives cutting
off a suffix. -/
theorem pairwiseOk_append_left (f : Char → List Char → Bool)
    (hstep : ∀ c rest l₂, f c (rest ++ l₂) = true → f c rest = true)
    (l₁ l₂ : List Char) (h : pairwiseOk f (l₁ ++ l₂) = true) :
    pairwiseOk f l₁ = true := by
  induction l₁ with
  | nil => rfl
  | cons c rest ih =>
    rw [List.cons_append] at h
    obtain ⟨h1, h2⟩ := pairwiseOk_cons h
    unfold pairwiseOk
    rw [hstep c rest l₂ h1, ih h2]
    rfl

/-- Every list is a catenation of a dropped-prefix and its `dropWhile`. -/
theorem dropWhile_decomp (q : Char → Bool) (l : List Char) :
    ∃ t, l = t ++ l.dropWhile q := by
  induction l with
  | nil => exact ⟨[], rfl⟩
  | cons c cs ih =>
    rw [List.dropWhile_cons]
    by_cases hq : q c = true
    · rw [if_pos hq]
      obtain ⟨t, ht⟩ := ih
      exact ⟨c :: t, by rw [List.cons_append, ← ht]⟩
    · rw [if_neg hq]
      exact ⟨[], rfl⟩

/-- `dropTrailing` cuts off a suffix. -/
theorem dropTrailing_decomp (q : Char → Bool) (l : List Char) :
    ∃ t, l = dropTrailing q l ++ t := by
  obtain ⟨t, ht⟩ := dropWhile_decomp q l.reverse
  refine ⟨t.reverse, ?_⟩
  unfold dropTrailing
  calc l = l.reverse.reverse := (List.reverse_reverse l).symm
    _ = (t ++ l.reverse.dropWhile q).reverse := by rw [← ht]
    _ = (l.reverse.dropWhile q).reverse ++ t.reverse := List.reverse_append _ _

/-- A pairwise scan (whose step only looks at the successor) survives a
strip: `pyStrip` drops a prefix and a suffix. -/
theorem pairwiseOk_pyStrip (f : Char → List Char → Bool)
    (hstep : ∀ c rest l₂, f c (rest ++ l₂) = true → f c rest = true)
    (l : List Char) (h : pairwiseOk f l = true) :
    pairwiseOk f (pyStrip l) = true := by
  have h1 : pairwiseOk f (l.dropWhile isPySpace) = true :=
    pairwiseOk_dropWhile f isPySpace l h
  have hps : pyStrip l = dropTrailing isPySpace (l.dropWhile isPySpace) := rfl
  obtain ⟨t, ht⟩ := dropTrailing_decomp isPySpace (l.dropWhile isPySpace)
  rw [hps]
  exact pairwiseOk_append_left f hstep _ t (by rw [← ht]; exact h1)

/-- The step functions of the three normal-form predicates only look at the
successor character. -/
theorem spaceOnly_step : ∀ (c : Char) (_rest _l₂ : List Char),
    (!isPySpace c || c = ' ') = true → (!isPySpace c || c = ' ') = true :=
  fun _ _ _ h => h

/-- `headNotSpace` only looks at the head, so it is stable under cutting a
suffix off a nonempty list. -/
theorem headNotSpace_append (rest l₂ : List Char)
    (h : headNotSpace (rest ++ l₂) = true) (hne : rest ≠ []) :
    headNotSpace rest = true := by
  cases rest with
  | nil => exact absurd rfl hne
  | cons d ds => exact h

/-- Same for `headNotPunct`. -/
theorem headNotPunct_append (rest l₂ : List Char)
    (h : headNotPunct (rest ++ l₂) = true) (hne : rest ≠ []) :
    headNotPunct rest = true := by
  cases rest with
  | nil => exact absurd rfl hne
  | cons d ds => exact h

/-- The `noTwoSpacesB` step survives cutting off a suffix. -/
theorem noTwo_step (c : Char) (rest l₂ : List Char)
    (h : (!isPySpace c || headNotSpace (rest ++ l₂)) = true) :
    (!isPySpace c || headNotSpace rest) = true := by
  cases rest with
  | nil => simp [headNotSpace]
  | cons d ds =>
    rw [List.cons_append] at h
    exact h

/-- The `noSpacePunctB` step survives cutting off a suffix. -/
theorem noSpacePunct_step (c : Char) (rest l₂ : List Char)
    (h : (!isPySpace c || headNotPunct (rest ++ l₂)) = true) :
    (!isPySpace c || headNotPunct rest) = true := by
  cases rest with
  | nil => simp [headNotPunct]
  | cons d ds =>
    rw [List.cons_append] at h
    exact h

/-- A pairwise scan holds at a cons cell when it holds at the head and on
the tail. -/
theorem pairwiseOk_cons_intro {f : Char → List Char → Bool} {c : Char}
    {l : List Char} (h1 : f c l = true) (h2 : pairwiseOk f l = true) :
    pairwiseOk f (c :: l) = true := by
  unfold pairwiseOk
  rw [h1, h2]
  rfl

/-- The collapse pass in in-run mode emits a non-space first (or nothing). -/
theorem collapseWsB_true_headNotSpace (l : List Char) :
    headNotSpace (collapseWsB true l) = true := by
  induction l with
  | nil => rfl
  | cons c cs ih =>
    unfold collapseWsB
    by_cases hc : isPySpace c = true
    · rw [if_pos hc, if_pos rfl]
      exact ih
    · have hc' : isPySpace c = false := by
        simp at hc
        exact hc
      rw [if_neg hc]
      simp [headNotSpace, hc']

/-- Every whitespace character the collapse pass emits is a plain space. -/
theorem collapseWsB_spaceOnly (b : Bool) (l : List Char) :
    spaceOnlyB (collapseWsB b l) = true := by
  induction l generalizing b with
  | nil => rfl
  | cons c cs ih =>
    unfold collapseWsB
    by_cases hc : isPySpace c = true
    · rw [if_pos hc]
      rcases b with _ | _
      · rw [if_neg (by decide)]
        exact pairwiseOk_cons_intro (by decide) (ih true)
      · rw [if_pos rfl]
        exact ih true
    · have hc' : isPySpace c = false := by
        simp at hc
        exact hc
      rw [if_neg hc]
      exact pairwiseOk_cons_intro (by simp [hc']) (ih false)

/-- The collapse pass never emits two adjacent whitespace characters. -/
theorem collapseWsB_noTwo (b : Bool) (l : List Char) :
    noTwoSpacesB (collapseWsB b l) = true := by
  induction l generalizing b with
  | nil => rfl
  | cons c cs ih =>
    unfold collapseWsB
    by_cases hc : isPySpace c = true
    · rw [if_pos hc]
      rcases b with _ | _
      · rw [if_neg (by decide)]
        exact pairwiseOk_cons_intro
          (by simp [collapseWsB_true_headNotSpace cs]) (ih true)
      · rw [if_pos rfl]
        exact ih true
    · have hc' : isPySpace c = false := by
        simp at hc
        exact hc
      rw [if_neg hc]
      exact pairwiseOk_cons_intro (by simp [hc']) (ih false)

/-- If the next character is not whitespace, in-run and normal mode agree. -/
theorem collapseWsB_true_of_headNotSpace (l : List Char)
    (h : headNotSpace l = true) : collapseWsB true l = collapseWsB false l := by
  cases l with
  | nil => rfl
  | cons c cs =>
    unfold headNotSpace at h
    simp only [Bool.not_eq_true'] at h
    unfold collapseWsB
    rw [if_neg (by simp [h]), if_neg (by simp [h])]

/-- The collapse pass is the identity on lists in normal form. -/
theorem collapseWs_id (l : List Char) (hso : spaceOnlyB l = true)
    (hnt : noTwoSpacesB l = true) : collapseWs l = l := by
  unfold collapseWs
  induction l with
  | nil => rfl
  | cons c cs ih =>
    obtain ⟨hso1, hso2⟩ := pairwiseOk_cons hso
    obtain ⟨hnt1, hnt2⟩ := pairwiseOk_cons hnt
    unfold collapseWsB
    by_cases hc : isPySpace c = true
    · rw [if_pos hc, if_neg (by decide)]
      have hsp : c = ' ' := by
        rw [hc] at hso1
        simpa using hso1
      have hhead : headNotSpace cs = true := by
        rw [hc] at hnt1
        simpa using hnt1
      rw [collapseWsB_true_of_headNotSpace cs hhead, ih hso2 hnt2, hsp]
    · rw [if_neg hc, ih hso2 hnt2]

/-- On normal-form input (spaces are single plain spaces), the
space-before-punctuation pass produces output that is again in normal form
and additionally has no whitespace directly before punctuation. -/
theorem dropSpacePunct_norm : ∀ (n : Nat) (l : List Char), l.length ≤ n →
    spaceOnlyB l = true → noTwoSpacesB l = true →
    spaceOnlyB (dropSpacePunctGo none l) = true ∧
    noTwoSpacesB (dropSpacePunctGo none l) = true ∧
    noSpacePunctB (dropSpacePunctGo none l) = true := by
  intro n
  induction n with
  | zero =>
    intro l hl _ _
    have hnil : l = [] := List.eq_nil_of_length_eq_zero (Nat.le_zero.mp hl)
    rw [hnil]
    exact ⟨rfl, rfl, rfl⟩
  | succ n ih =>
    intro l hl hso hnt
    cases l with
    | nil => exact ⟨rfl, rfl, rfl⟩
    | cons c cs =>
      obtain ⟨hso1, hso2⟩ := pairwiseOk_cons hso
      obtain ⟨hnt1, hnt2⟩ := pairwiseOk_cons hnt
      simp only [List.length_cons, Nat.succ_le_succ_iff] at hl
      by_cases hc : isPySpace c = true
      · have hsp : c = ' ' := by
          rw [hc] at hso1
          simpa using hso1
        have hhead : headNotSpace cs = true := by
          rw [hc] at hnt1
          simpa using hnt1
        unfold dropSpacePunctGo
        rw [if_pos hc]
        cases cs with
        | nil =>
          refine ⟨?_, ?_, ?_⟩ <;>
            exact pairwiseOk_cons_intro (by simp [hsp, headNotSpace, headNotPunct]) rfl
        | cons d ds =>
          have hd : isPySpace d = false := by
            unfold headNotSpace at hhead
            simpa using hhead
          obtain ⟨_, hso3⟩ := pairwiseOk_cons hso2
          obtain ⟨_, hnt3⟩ := pairwiseOk_cons hnt2
          have hlen : ds.length ≤ n := Nat.le_of_succ_le hl
          obtain ⟨o1, o2, o3⟩ := ih ds hlen hso3 hnt3
          unfold dropSpacePunctGo
          rw [if_neg (by simp [hd])]
          by_cases hp : isPunct d = true
          · rw [if_pos hp]
            exact ⟨pairwiseOk_cons_intro (by simp [hd]) o1,
              pairwiseOk_cons_intro (by simp [hd]) o2,
              pairwiseOk_cons_intro (by simp [hd]) o3⟩
          · have hp' : isPunct d = false := by
              simp at hp
              exact hp
            rw [if_neg hp]
            refine ⟨?_, ?_, ?_⟩
            · exact pairwiseOk_cons_intro (by simp [hsp])
                (pairwiseOk_cons_intro (by simp [hd]) o1)
            · exact pairwiseOk_cons_intro (by simp [hsp, headNotSpace, hd])
                (pairwiseOk_cons_intro (by simp [hd]) o2)
            · exact pairwiseOk_cons_intro (by simp [hsp, headNotPunct, hp'])
                (pairwiseOk_cons_intro (by simp [hd]) o3)
      · have hc' : isPySpace c = false := by
          simp at hc
          exact hc
        unfold dropSpacePunctGo
        rw [if_neg hc]
        obtain ⟨o1, o2, o3⟩ := ih cs hl hso2 hnt2
        exact ⟨pairwiseOk_cons_intro (by simp [hc']) o1,
          pairwiseOk_cons_intro (by simp [hc']) o2,
          pairwiseOk_cons_intro (by simp [hc']) o3⟩

/-- On input with no double spaces and no space-before-punctuation, the
space-before-punctuation pass is the identity. -/
theorem dropSpacePunct_id : ∀ (n : Nat) (l : List Char), l.length ≤ n →
    noTwoSpacesB l = true → noSpacePunctB l = true →
    dropSpacePunctGo none l = l := by
  intro n
  induction n with
  | zero =>
    intro l hl _ _
    have hnil : l = [] := List.eq_nil_of_length_eq_zero (Nat.le_zero.mp hl)
    rw [hnil]
    rfl
  | succ n ih =>
    intro l hl hnt hnsp
    cases l with
    | nil => rfl
    | cons c cs =>
      obtain ⟨hnt1, hnt2⟩ := pairwiseOk_cons hnt
      obtain ⟨hnsp1, hnsp2⟩ := pairwiseOk_cons hnsp
      simp only [List.length_cons, Nat.succ_le_succ_iff] at hl
      by_cases hc : isPySpace c = true
      · have hhead : headNotSpace cs = true := by
          rw [hc] at hnt1
          simpa using hnt1
        have hheadp : headNotPunct cs = true := by
          rw [hc] at hnsp1
          simpa using hnsp1
        unfold dropSpacePunctGo
        rw [if_pos hc]
        cases cs with
        | nil => rfl
        | cons d ds =>
          have hd : isPySpace d = false := by
            unfold headNotSpace at hhead
            simpa using hhead
          have hdp : isPunct d = false := by
            unfold headNotPunct at hheadp
            simpa using hheadp
          obtain ⟨_, hnt3⟩ := pairwiseOk_cons hnt2
          obtain ⟨_, hnsp3⟩ := pairwiseOk_cons hnsp2
          unfold dropSpacePunctGo
          rw [if_neg (by simp [hd]), if_neg (by simp [hdp])]
          rw [ih ds (Nat.le_of_succ_le hl) hnt3 hnsp3]
          rfl
      · unfold dropSpacePunctGo
        rw [if_neg hc, ih cs hl hnt2 hnsp2]

/-- The head of a `dropWhile` result never satisfies the dropped test. -/
theorem dropWhile_head_false (q : Char → Bool) (l : List Char) (c : Char)
    (h : (l.dropWhile q).head? = some c) : q c = false := by
  induction l with
  | nil => cases h
  | cons d ds ih =>
    rw [List.dropWhile_cons] at h
    by_cases hq : q d = true
    · rw [if_pos hq] at h
      exact ih h
    · rw [if_neg hq] at h
      cases h
      simpa using hq

/-- `dropWhile` is the identity when the head (if any) does not satisfy the
test. -/
theorem dropWhile_eq_self_of_head_false (q : Char → Bool) (l : List Char)
    (h : ∀ c, l.head? = some c → q c = false) : l.dropWhile q = l := by
  cases l with
  | nil => rfl
  | cons c cs =>
    rw [List.dropWhile_cons,
      if_neg (by rw [h c rfl]; exact fun hgg => Bool.false_ne_true hgg)]

/-- `str.strip()` is idempotent. -/
theorem pyStrip_idem (l : List Char) : pyStrip (pyStrip l) = pyStrip l := by
  have hps : ∀ m, pyStrip m = dropTrailing isPySpace (m.dropWhile isPySpace) :=
    fun _ => rfl
  have hhead : ∀ c, (pyStrip l).head? = some c → isPySpace c = false := by
    intro c hc
    obtain ⟨t, ht⟩ := dropTrailing_decomp isPySpace (l.dropWhile isPySpace)
    rw [hps l] at hc
    have : (l.dropWhile isPySpace).head? = some c := by
      rw [ht]
      cases hE : dropTrailing isPySpace (l.dropWhile isPySpace) with
      | nil =>
        rw [hE] at hc
        cases hc
      | cons a as =>
        rw [hE] at hc
        cases hc
        rfl
    exact dropWhile_head_false isPySpace l c this
  have h1 : (pyStrip l).dropWhile isPySpace = pyStrip l :=
    dropWhile_eq_self_of_head_false isPySpace (pyStrip l) hhead
  have h2 : (pyStrip l).reverse.dropWhile isPySpace = (pyStrip l).reverse := by
    apply dropWhile_eq_self_of_head_false
    intro c hc
    have hrev : (pyStrip l).reverse
        = (l.dropWhile isPySpace).reverse.dropWhile isPySpace := by
      unfold pyStrip
      rw [List.reverse_reverse]
    rw [hrev] at hc
    exact dropWhile_head_false isPySpace (l.dropWhile isPySpace).reverse c hc
  rw [hps (pyStrip l), h1]
  unfold dropTrailing
  rw [h2, List.reverse_reverse]

/-- The composed `collapse → de-space-punctuation → strip` normalization is
idempotent on every input. -/
theorem stripNorm_idem (z : List Char) :
    pyStrip (dropSpacePunct (collapseWs
      (pyStrip (dropSpacePunct (collapseWs z)))))
      = pyStrip (dropSpacePunct (collapseWs z)) := by
  obtain ⟨w1, w2, w3⟩ := dropSpacePunct_norm (collapseWs z).length (collapseWs z)
    (Nat.le_refl _) (collapseWsB_spaceOnly false z) (collapseWsB_noTwo false z)
  have hy1 : spaceOnlyB (pyStrip (dropSpacePunct (collapseWs z))) = true :=
    pairwiseOk_pyStrip _ spaceOnly_step _ w1
  have hy2 : noTwoSpacesB (pyStrip (dropSpacePunct (collapseWs z))) = true :=
    pairwiseOk_pyStrip _ noTwo_step _ w2
  have hy3 : noSpacePunctB (pyStrip (dropSpacePunct (collapseWs z))) = true :=
    pairwiseOk_pyStrip _ noSpacePunct_step _ w3
  have hid : dropSpacePunct (pyStrip (dropSpacePunct (collapseWs z)))
      = pyStrip (dropSpacePunct (collapseWs z)) :=
    dropSpacePunct_id (pyStrip (dropSpacePunct (collapseWs z))).length _
      (Nat.le_refl _) hy2 hy3
  rw [collapseWs_id _ hy1 hy2, hid]
  exact pyStrip_idem _

/-- C7 counterexample: the stripper is not idempotent.  The input
`"<th<think>x</think>ink>y</think>"` strips (leftmost, non-greedy removal of
`<think>x</think>`) to `"<think>y</think>"`, which a second pass strips to
`""`. -/
theorem C7_stripper_not_idempotent_ce :
    strip_think_chain_from_text "<th<think>x</think>ink>y</think>"
      = "<think>y</think>" ∧
    strip_think_chain_from_text (strip_think_chain_from_text
        "<th<think>x</think>ink>y</think>")
      ≠ strip_think_chain_from_text "<th<think>x</think>ink>y</think>" := by
  exact ⟨by decide, by decide⟩

/-- C7 amended: the stripper is idempotent on exactly the inputs whose
stripped form contains no surviving paired `<think>…</think>` block (block
removal can splice delimiters together, re-creating a pair): whenever the
block-removal pass is a no-op on `strip(x)`, a second full strip is a no-op
— whitespace is already collapsed to single plain spaces, no whitespace
precedes punctuation, and the ends are already trimmed. -/
theorem C7_stripper_idempotent_on_stripped (x : String)
    (hthink : removeThink (strip_think_chain_from_text x).data
      = (strip_think_chain_from_text x).data) :
    strip_think_chain_from_text (strip_think_chain_from_text x)
      = strip_think_chain_from_text x := by
  have heta : ∀ s : String, (⟨s.data⟩ : String) = s := fun ⟨l⟩ => rfl
  have hdata : (strip_think_chain_from_text (strip_think_chain_from_text x)).data
      = (strip_think_chain_from_text x).data := by
    show pyStrip (dropSpacePunct (collapseWs
        (removeThink (strip_think_chain_from_text x).data)))
      = (strip_think_chain_from_text x).data
    rw [hthink]
    show pyStrip (dropSpacePunct (collapseWs
        (pyStrip (dropSpacePunct (collapseWs (removeThink x.data))))))
      = pyStrip (dropSpacePunct (collapseWs (removeThink x.data)))
    exact stripNorm_idem (removeThink x.data)
  calc strip_think_chain_from_text (strip_think_chain_from_text x)
      = ⟨(strip_think_chain_from_text (strip_think_chain_from_text x)).data⟩ :=
        (heta _).symm
    _ = ⟨(strip_think_chain_from_text x).data⟩ :=
        congrArg (fun l => (⟨l⟩ : String)) hdata
    _ = strip_think_chain_from_text x := heta _

/-- Witness for C7 at an input whose stripped form has no think block. -/
theorem C7_stripper_idempotent_on_stripped_witness :
    removeThink (strip_think_chain_from_text
        "Hello <think>internal</think> world.").data
      = (strip_think_chain_from_text "Hello <think>internal</think> world.").data ∧
    strip_think_chain_from_text (strip_think_chain_from_text
        "Hello <think>internal</think> world.")
      = strip_think_chain_from_text "Hello <think>internal</think> world." :=
  ⟨by decide,
   C7_stripper_idempotent_on_stripped "Hello <think>internal</think> world."
     (by decide)⟩

/-- C2 counterexample: at `23:59:59.5` Pacific (`microOfDay = 86399500000`)
with every key excluded (the single configured key is flagged invalid), the
selection raises the quota-exhausted error, but
`int((tomorrow_midnight - now).total_seconds())` truncates the remaining
half second to `0` — the carried retry-after value is not strictly
positive. -/
theorem C2_retry_after_zero_ce :
    (select_best_api_key (fun s => s) ["k1"] 1500 "prov" "m"
        ⟨"2025-01-02", 1000, 86399500000⟩
        [(("k1", "prov", "m"), ⟨0, 0, "2025-01-02", none, true, 0, none, 0, 0⟩)]).1
      = .exhausted 0 ∧ ¬ 0 < 0 := by
  exact ⟨by decide, by decide⟩

/-- C2 amended: whenever every configured key is excluded (the selection
yields the quota-exhausted error rather than a key), the carried retry-after
value equals the floored number of seconds until the next Pacific midnight,
`(86400·10⁶ − microOfDay) div 10⁶`; it is non-negative, and strictly
positive whenever at least one full second remains before midnight. -/
theorem C2_exhausted_retry_after (h : String → String) (ks : List String)
    (ceiling : Nat) (p m : String) (now : PacificNow) (store : Store) (r : Nat)
    (hsel : (select_best_api_key h ks ceiling p m now store).1 = .exhausted r) :
    r = (dayMicro - now.microOfDay) / 1000000 ∧
    (now.microOfDay + 1000000 ≤ dayMicro → 0 < r) := by
  unfold select_best_api_key at hsel
  rcases hloop : selectLoop h p m ceiling now ks store [] with ⟨avail, store'⟩
  rw [hloop] at hsel
  dsimp only at hsel
  rcases hs : insSort pairLe avail with _ | ⟨⟨k, c⟩, t⟩ <;> rw [hs] at hsel <;>
    dsimp only at hsel
  · injection hsel with h1
    subst h1
    constructor
    · rfl
    · intro hsec
      have : 1000000 ≤ dayMicro - now.microOfDay := by omega
      calc 0 < 1000000 / 1000000 := by norm_num
        _ ≤ (dayMicro - now.microOfDay) / 1000000 := Nat.div_le_div_right this
  · cases hsel

/-- Witness for C2 an hour after midnight Pacific: the retry value is
82800 seconds (23 hours), strictly positive. -/
theorem C2_exhausted_retry_after_witness :
    82800 = (dayMicro - 3600000000) / 1000000 ∧ (0 : Nat) < 82800 := by
  have h := C2_exhausted_retry_after (fun s => s) ["k1"] 1500 "prov" "m"
    ⟨"2025-01-02", 1000, 3600000000⟩
    [(("k1", "prov", "m"), ⟨0, 0, "2025-01-02", none, true, 0, none, 0, 0⟩)]
    82800 (by decide)
  exact ⟨h.1, h.2 (by decide)⟩

end SmolRouter
